import Mathlib

/-!
# posix.Exec and its wrappers (gocircuit, `circuit/kit/posix/posix.go`)

A shallow embedding of the Go package `posix`.

* `Exec`, `Shell`, `RemoteShell`, `DownloadDir`, `UploadDir` are transcribed from
  the source, call by call, over an explicit operating-system interface `OS`: the
  calls of `os/exec` and `io/ioutil` that the source makes, as state transformers.
  A call that never returns is modelled by `none`.
* `logged` wraps any `OS` so that the sequence of calls made is recorded.
* `scripted` is an `OS` that answers every call from a list of canned replies; it
  exhibits single outcomes such as a read that fails.
* `px` is an `OS` that simulates one child process connected to the caller through
  three pipes; it exhibits runs in which the caller and the child wait for each
  other, and runs in which the child has gone before the caller writes.

What `Exec` does is stated for every `OS`.  The simulation `px` is used to exhibit
runs: a pipe in it never holds more than its capacity in unread bytes, a copying child
never holds more than its buffer, and the runs shown are those in which more bytes
than that would have to be held, or in which the child has exited.  The loops that
let the child run carry a step budget that never runs out (`pump_budget`,
`drain_budget`, `settle_budget`), so that `none` from `px` always stands for a caller
and a child that wait for each other.

Go strings and byte slices are both modelled as lists of bytes; the conversions
between them copy the bytes unchanged.
-/

namespace Posix

/-! ## Go data -/

/-- Byte sequences (`[]byte`). -/
abbrev Bytes := List UInt8

/-- Go strings are immutable byte sequences. -/
abbrev GoString := List UInt8

/-- Go string literal: the UTF-8 bytes of the text. -/
def lit (s : String) : GoString := s.toUTF8.data.toList

/-- Conversion `[]byte(s)`: the bytes of the string, unchanged. -/
def toBytes (s : GoString) : Bytes := s

/-- Conversion `string(b)`: the same bytes, unchanged. -/
def ofBytes (b : Bytes) : GoString := b

/-- Values of Go's `error` interface that the embedding distinguishes. -/
inductive GoError
  /-- Type `*exec.ExitError`: the child ran and exited with a non-zero status. -/
  | ExitError (code : Nat)
  /-- Type `syscall.Errno`. -/
  | Errno (n : Nat)
  /-- Any error carrying only a message. -/
  | Msg (text : String)
  deriving DecidableEq, Repr

def ENOENT : GoError := .Errno 2
def EIO : GoError := .Errno 5
def EBADF : GoError := .Errno 9
def EPIPE : GoError := .Errno 32

/-- The fields of `exec.Cmd` that the source sets. -/
structure Cmd where
  Path : GoString
  Args : List GoString
  Dir : GoString
  deriving DecidableEq, Repr

/-- Function `exec.Command(name, arg...)`: `Args` is the name followed by the arguments. -/
def Command (name : GoString) (arg : List GoString) : Cmd :=
  { Path := name, Args := name :: arg, Dir := [] }

/-- Handles of the pipe ends held by the caller. -/
abbrev Fd := Nat

/-- The three named results of `Exec`. -/
structure Result where
  stdout : GoString
  stderr : GoString
  err : Option GoError
  deriving DecidableEq, Repr

/-! ## The operating-system interface used by the source -/

/-- The calls the source makes, as state transformers on a world `σ`.
`none` means that the call never returns. -/
structure OS (σ : Type) where
  /-- Method `cmd.StdinPipe()`. -/
  StdinPipe : Cmd → σ → Option (Except GoError Fd × σ)
  /-- Method `cmd.StdoutPipe()`. -/
  StdoutPipe : Cmd → σ → Option (Except GoError Fd × σ)
  /-- Method `cmd.StderrPipe()`. -/
  StderrPipe : Cmd → σ → Option (Except GoError Fd × σ)
  /-- Method `cmd.Start()`. -/
  Start : Cmd → σ → Option (Option GoError × σ)
  /-- Method `w.Write(b)`: number of bytes written and error. -/
  Write : Fd → Bytes → σ → Option ((Nat × Option GoError) × σ)
  /-- Method `w.Close()`. -/
  Close : Fd → σ → Option (Option GoError × σ)
  /-- Function `ioutil.ReadAll(r)`: the bytes read and the error that stopped the read, if any. -/
  ReadAll : Fd → σ → Option ((Bytes × Option GoError) × σ)
  /-- Method `cmd.Wait()`. -/
  Wait : Cmd → σ → Option (Option GoError × σ)

/-! ## The source, transcribed -/

/-- Function `Exec` (posix.go, lines 25-60). -/
def Exec {σ : Type} (os : OS σ) (prog dir stdin : GoString) (argv : List GoString) (w0 : σ) :
    Option (Result × σ) :=
  let cmd : Cmd := { Command prog argv with Dir := dir }
  match os.StdinPipe cmd w0 with
  | none => none
  | some (.error err, w1) => some (⟨lit "", lit "", some err⟩, w1)
  | some (.ok stdinWriter, w1) =>
  match os.StdoutPipe cmd w1 with
  | none => none
  | some (.error err, w2) => some (⟨lit "", lit "", some err⟩, w2)
  | some (.ok stdoutReader, w2) =>
  match os.StderrPipe cmd w2 with
  | none => none
  | some (.error err, w3) => some (⟨lit "", lit "", some err⟩, w3)
  | some (.ok stderrReader, w3) =>
  match os.Start cmd w3 with
  | none => none
  | some (some err, w4) => some (⟨lit "", lit "", some err⟩, w4)
  | some (none, w4) =>
  match os.Write stdinWriter (toBytes stdin) w4 with
  | none => none
  | some ((_, some err), w5) => some (⟨lit "", lit "", some err⟩, w5)
  | some ((_, none), w5) =>
  match os.Close stdinWriter w5 with
  | none => none
  | some (some err, w6) => some (⟨lit "", lit "", some err⟩, w6)
  | some (none, w6) =>
  match os.ReadAll stdoutReader w6 with
  | none => none
  | some ((stdoutBuf, _), w7) =>
  match os.ReadAll stderrReader w7 with
  | none => none
  | some ((stderrBuf, _), w8) =>
  match os.Wait cmd w8 with
  | none => none
  | some (err, w9) => some (⟨ofBytes stdoutBuf, ofBytes stderrBuf, err⟩, w9)

/-- Function `Shell` (posix.go, lines 63-65). -/
def Shell {σ : Type} (os : OS σ) (shellStdin : GoString) (w : σ) : Option (Result × σ) :=
  Exec os (lit "sh") (lit "") shellStdin [] w

/-- Function `RemoteShell` (posix.go, lines 68-70). -/
def RemoteShell {σ : Type} (os : OS σ) (remoteHost remoteShellStdin : GoString) (w : σ) :
    Option (Result × σ) :=
  Exec os (lit "ssh") (lit "") remoteShellStdin [remoteHost, lit "sh -il"] w

/-- Function `DownloadDir` (posix.go, lines 73-76). -/
def DownloadDir {σ : Type} (os : OS σ) (remoteHost remoteDir sourceDir : GoString) (w : σ) :
    Option (Option GoError × σ) :=
  match Exec os (lit "rsync") (lit "") (lit "")
      [lit "-acrv", lit "--rsh=ssh", remoteHost ++ lit ":" ++ remoteDir ++ lit "/",
        sourceDir ++ lit "/"] w with
  | none => none
  | some (r, w1) => some (r.err, w1)

/-- Function `UploadDir` (posix.go, lines 80-83). -/
def UploadDir {σ : Type} (os : OS σ) (remoteHost sourceDir remoteDir : GoString) (w : σ) :
    Option (Option GoError × σ) :=
  match Exec os (lit "rsync") (lit "") (lit "")
      [lit "-acrv", lit "--rsh=ssh", sourceDir ++ lit "/",
        remoteHost ++ lit ":" ++ remoteDir ++ lit "/"] w with
  | none => none
  | some (r, w1) => some (r.err, w1)

/-! ## Recording the calls -/

/-- One call through the interface, with its arguments. -/
inductive Call
  | StdinPipe
  | StdoutPipe
  | StderrPipe
  | Start (cmd : Cmd)
  | Write (fd : Fd) (b : Bytes)
  | Close (fd : Fd)
  | ReadAll (fd : Fd)
  | Wait
  deriving DecidableEq, Repr

/-- Append a call to the log carried next to the world, once the call has returned. -/
def record {σ α : Type} (c : Call) (log : List Call) (r : Option (α × σ)) :
    Option (α × (σ × List Call)) :=
  match r with
  | none => none
  | some (a, w) => some (a, (w, log ++ [c]))

/-- The same operating system, with every returned call appended to a log. -/
def logged {σ : Type} (os : OS σ) : OS (σ × List Call) where
  StdinPipe cmd w := record .StdinPipe w.2 (os.StdinPipe cmd w.1)
  StdoutPipe cmd w := record .StdoutPipe w.2 (os.StdoutPipe cmd w.1)
  StderrPipe cmd w := record .StderrPipe w.2 (os.StderrPipe cmd w.1)
  Start cmd w := record (.Start cmd) w.2 (os.Start cmd w.1)
  Write fd b w := record (.Write fd b) w.2 (os.Write fd b w.1)
  Close fd w := record (.Close fd) w.2 (os.Close fd w.1)
  ReadAll fd w := record (.ReadAll fd) w.2 (os.ReadAll fd w.1)
  Wait cmd w := record .Wait w.2 (os.Wait cmd w.1)

/-! ## A scripted operating system -/

/-- A canned answer to one call. -/
inductive Reply
  /-- Answer to `StdinPipe`, `StdoutPipe` or `StderrPipe`. -/
  | pipe (r : Except GoError Fd)
  /-- Answer to `Start`, `Close` or `Wait`. -/
  | status (e : Option GoError)
  /-- Answer to `Write`. -/
  | wrote (n : Nat) (e : Option GoError)
  /-- Answer to `ReadAll`. -/
  | data (b : Bytes) (e : Option GoError)

/-- Every call consumes the next reply of the script; a call that finds no reply
of its kind never returns. -/
def scripted : OS (List Reply) where
  StdinPipe _ w := match w with
    | .pipe r :: rest => some (r, rest)
    | _ => none
  StdoutPipe _ w := match w with
    | .pipe r :: rest => some (r, rest)
    | _ => none
  StderrPipe _ w := match w with
    | .pipe r :: rest => some (r, rest)
    | _ => none
  Start _ w := match w with
    | .status e :: rest => some (e, rest)
    | _ => none
  Write _ _ w := match w with
    | .wrote n e :: rest => some ((n, e), rest)
    | _ => none
  Close _ w := match w with
    | .status e :: rest => some (e, rest)
    | _ => none
  ReadAll _ w := match w with
    | .data b e :: rest => some ((b, e), rest)
    | _ => none
  Wait _ w := match w with
    | .status e :: rest => some (e, rest)
    | _ => none

/-! ## One child process behind three pipes

A pipe never holds more than `cap` unread bytes: a writer that finds it full waits
for the reader.  A reader that finds a pipe empty waits for the writer, and sees
end-of-stream once the write end is closed; writing to a pipe whose read end is
closed fails with `EPIPE`.  The child runs a fixed list of operations and then
exits; it keeps its ends of the three pipes until then and passes them to no other
process, so that they close exactly when it exits.

The pipe of this simulation accepts every byte up to `cap`, which is the most a
pipe of that capacity can accept; the runs shown with it are runs that wait because
more than that would have to be held. -/

/-- One operation of the child program. -/
inductive ChildOp
  /-- Write the bytes to standard output. -/
  | out (b : Bytes)
  /-- Write the bytes to standard error. -/
  | err (b : Bytes)
  /-- Copy standard input to standard output until end-of-input, through a buffer of
  `buf` bytes: read what the input holds, at most `buf` bytes, write all of it, and
  read again.  The bytes read and not yet written are `held`. -/
  | cat (buf : Nat) (held : Bytes)
  deriving DecidableEq, Repr

/-- What a program does when run: its operations, then its exit code. -/
structure Image where
  ops : List ChildOp
  code : Nat
  deriving DecidableEq, Repr

/-- The fixed part of the environment. -/
structure Machine where
  /-- Capacity of each pipe, in bytes. -/
  cap : Nat
  /-- The program a command resolves to, if any. -/
  bin : Cmd → Option Image

/-- Life cycle of the child. -/
inductive Life
  | unborn
  | running
  | zombie
  | reaped
  deriving DecidableEq, Repr

/-- The changing part of the environment. -/
structure Sys where
  /-- Pipe ends open in the calling process: 0 writes the child's standard input,
  1 reads its standard output, 2 reads its standard error. -/
  fds : List Fd
  life : Life
  /-- Operations the child has still to run; the head may be half done. -/
  ops : List ChildOp
  code : Nat
  /-- Bytes written to the child's standard input and not yet read by it. -/
  inBuf : Bytes
  /-- Whether the caller still holds the write end of the child's standard input. -/
  inOpen : Bool
  /-- Bytes written by the child to its standard output and not yet read. -/
  outBuf : Bytes
  /-- Bytes written by the child to its standard error and not yet read. -/
  errBuf : Bytes
  /-- How many steps the child gets to run before each of the caller's next
  calls to `Write`, `Close`, `ReadAll`, `Wait` (none once the list is used up). -/
  sched : List Nat
  deriving DecidableEq, Repr

/-- The state before anything is created. -/
def boot (sched : List Nat) : Sys :=
  { fds := [], life := .unborn, ops := [], code := 0, inBuf := [], inOpen := false,
    outBuf := [], errBuf := [], sched := sched }

/-- One step of the child: `none` when it cannot move (not running, or waiting on a pipe). -/
def childStep (cap : Nat) (s : Sys) : Option Sys :=
  if s.life = .running then
    match s.ops with
    | [] => some { s with life := .zombie }
    | .out b :: rest =>
      if b.length ≤ cap - s.outBuf.length then
        some { s with outBuf := s.outBuf ++ b, ops := rest }
      else if cap - s.outBuf.length = 0 then none
      else some { s with outBuf := s.outBuf ++ b.take (cap - s.outBuf.length),
                         ops := .out (b.drop (cap - s.outBuf.length)) :: rest }
    | .err b :: rest =>
      if b.length ≤ cap - s.errBuf.length then
        some { s with errBuf := s.errBuf ++ b, ops := rest }
      else if cap - s.errBuf.length = 0 then none
      else some { s with errBuf := s.errBuf ++ b.take (cap - s.errBuf.length),
                         ops := .err (b.drop (cap - s.errBuf.length)) :: rest }
    | .cat buf held :: rest =>
      if held = [] then
        if s.inBuf = [] then
          if s.inOpen then none else some { s with ops := rest }
        else if buf = 0 then none
        else some { s with ops := .cat buf (s.inBuf.take buf) :: rest,
                           inBuf := s.inBuf.drop buf }
      else if held.length ≤ cap - s.outBuf.length then
        some { s with outBuf := s.outBuf ++ held, ops := .cat buf [] :: rest }
      else if cap - s.outBuf.length = 0 then none
      else some { s with outBuf := s.outBuf ++ held.take (cap - s.outBuf.length),
                         ops := .cat buf (held.drop (cap - s.outBuf.length)) :: rest }
  else none

/-- Up to `k` steps of the child. -/
def childRun (cap : Nat) : Nat → Sys → Sys
  | 0, s => s
  | k + 1, s =>
    match childStep cap s with
    | none => s
    | some s1 => childRun cap k s1

/-- The child's turn before a call of the caller, as the schedule says. -/
def tick (cap : Nat) (s : Sys) : Sys :=
  match s.sched with
  | [] => s
  | k :: rest => childRun cap k { s with sched := rest }

/-- Number of bytes and operations an operation has still to move. -/
def opWork : ChildOp → Nat
  | .out b => b.length + 1
  | .err b => b.length + 1
  | .cat _ held => held.length + 1

/-- Bound on the number of steps the child can still take. -/
def work (s : Sys) : Nat :=
  (s.ops.map opWork).sum + 2 * s.inBuf.length + (if s.life = .running then 1 else 0)

/-- Whether the child has closed its ends of the pipes (it has exited). -/
def Sys.gone (s : Sys) : Bool :=
  s.life = .zombie || s.life = .reaped

/-- Writing `p` to the child's standard input: what fits goes into the pipe, and
the child runs while the rest waits.  The outer `none` is an exhausted step budget,
the inner `none` is a caller and a child that both wait for each other. -/
def pump (cap : Nat) : Nat → Sys → Bytes → Nat → Option (Option ((Nat × Option GoError) × Sys))
  | 0, _, _, _ => none
  | n + 1, s, p, done =>
    if p = [] then some (some ((done, none), s))
    else if s.gone then some (some ((done, some EPIPE), s))
    else if p.length ≤ cap - s.inBuf.length then
      some (some ((done + p.length, none), { s with inBuf := s.inBuf ++ p }))
    else
      match childStep cap { s with inBuf := s.inBuf ++ p.take (cap - s.inBuf.length) } with
      | none => some none
      | some s1 => pump cap n s1 (p.drop (cap - s.inBuf.length)) (done + (cap - s.inBuf.length))

/-- Reading standard output (`e = false`) or standard error (`e = true`) to
end-of-stream: take what the pipe holds, and let the child run until it exits.
The outer `none` is an exhausted step budget, the inner `none` is a child that
waits on another pipe while the caller waits on this one. -/
def drain (cap : Nat) (e : Bool) : Nat → Sys → Bytes → Option (Option (Bytes × Sys))
  | 0, _, _ => none
  | n + 1, s, acc =>
    let acc1 := acc ++ (if e then s.errBuf else s.outBuf)
    let s1 := if e then { s with errBuf := [] } else { s with outBuf := [] }
    if s1.gone then some (some (acc1, s1))
    else
      match childStep cap s1 with
      | none => some none
      | some s2 => drain cap e n s2 acc1

/-- Waiting for the child to exit while reading nothing. -/
def settle (cap : Nat) : Nat → Sys → Option (Option Sys)
  | 0, _ => none
  | n + 1, s =>
    if s.gone then some (some s)
    else
      match childStep cap s with
      | none => some none
      | some s1 => settle cap n s1

/-- The error `cmd.Wait()` reports for a child that exited with a code: none for
status 0, an `*exec.ExitError` otherwise.  The exit status is the low eight bits
of the code. -/
def exitStatus (code : Nat) : Option GoError :=
  if code % 256 = 0 then none else some (.ExitError (code % 256))

/-- The operating system of machine `m`. -/
def px (m : Machine) : OS Sys where
  StdinPipe _ s :=
    if s.life = .unborn ∧ 0 ∉ s.fds then
      some (.ok 0, { s with fds := s.fds ++ [0], inOpen := true })
    else some (.error (.Msg "exec: Stdin already set or process started"), s)
  StdoutPipe _ s :=
    if s.life = .unborn ∧ 1 ∉ s.fds then some (.ok 1, { s with fds := s.fds ++ [1] })
    else some (.error (.Msg "exec: Stdout already set or process started"), s)
  StderrPipe _ s :=
    if s.life = .unborn ∧ 2 ∉ s.fds then some (.ok 2, { s with fds := s.fds ++ [2] })
    else some (.error (.Msg "exec: Stderr already set or process started"), s)
  Start cmd s :=
    if s.life = .unborn then
      match m.bin cmd with
      | none => some (some ENOENT, { s with fds := [], inOpen := false })
      | some img => some (none, { s with life := .running, ops := img.ops, code := img.code })
    else some (some (.Msg "exec: already started"), s)
  Write fd b s0 :=
    let s := tick m.cap s0
    if fd = 0 ∧ fd ∈ s.fds then (pump m.cap (3 * b.length + work s + 1) s b 0).join
    else some ((0, some EBADF), s)
  Close fd s0 :=
    let s := tick m.cap s0
    if fd ∈ s.fds then
      some (none, { s with fds := s.fds.erase fd, inOpen := if fd = 0 then false else s.inOpen })
    else some (some EBADF, s)
  ReadAll fd s0 :=
    let s := tick m.cap s0
    if (fd = 1 ∨ fd = 2) ∧ fd ∈ s.fds then
      ((drain m.cap (decide (fd = 2)) (work s + 1) s []).join).map
        fun r => ((r.1, none), r.2)
    else some (([], some EBADF), s)
  Wait _ s0 :=
    let s := tick m.cap s0
    if s.life = .running ∨ s.life = .zombie then
      ((settle m.cap (work s + 1) s).join).map
        fun s1 => (exitStatus s1.code, { s1 with life := .reaped, fds := [], inOpen := false })
    else some (some (.Msg "exec: not started or Wait was already called"), s)

/-- The command `Exec` builds: `exec.Command(prog, argv...)` with `Dir` set to `dir`. -/
abbrev cmdOf (prog dir : GoString) (argv : List GoString) : Cmd :=
  { Command prog argv with Dir := dir }

/-- Everything the child has still to write to standard error. -/
def childErr : List ChildOp → Bytes
  | [] => []
  | .out _ :: rest => childErr rest
  | .err b :: rest => b ++ childErr rest
  | .cat _ _ :: rest => childErr rest

/-- The state right after the three pipes are created and the child is started. -/
def started (img : Image) (sched : List Nat) : Sys :=
  { fds := [0, 1, 2], life := .running, ops := img.ops, code := img.code, inBuf := [],
    inOpen := true, outBuf := [], errBuf := [], sched := sched }

/-- What is known of the child in state `s` while its standard error is unread: `E` is
what the stderr pipe holds followed by what the child has still to write to it. -/
structure Pending (cap : Nat) (E : Bytes) (fds : List Fd) (s : Sys) : Prop where
  err : s.errBuf ++ childErr s.ops = E
  room : s.errBuf.length ≤ cap
  fds : s.fds = fds
  life : s.life = .running ∨ (s.life = .zombie ∧ s.ops = [])

/-! ## Sample environments -/

/-- A machine with pipes of the given capacity and four programs: `cat` copies its
input to its output through a buffer of 131072 bytes, `true` does nothing, `report`
writes to both streams and exits with code 42, `flood` writes 65537 bytes to standard
error and then 65537 bytes to standard output and exits with code 42. -/
def demo (cap : Nat) : Machine :=
  { cap := cap
    bin := fun c =>
      if c.Path = lit "cat" then some ⟨[.cat 131072 []], 0⟩
      else if c.Path = lit "true" then some ⟨[], 0⟩
      else if c.Path = lit "report" then
        some ⟨[.out (lit "ok"), .err (lit "!"), .out (lit "\n")], 42⟩
      else if c.Path = lit "flood" then
        some ⟨[.err (List.replicate 65537 101), .out (List.replicate 65537 111)], 42⟩
      else none }

/-- A script in which everything succeeds except the read of standard output, which
fails with `EIO` after one byte. -/
def readFails : List Reply :=
  [.pipe (.ok 0), .pipe (.ok 1), .pipe (.ok 2), .status none, .wrote 2 none, .status none,
    .data (lit "o") (some EIO), .data (lit "") none, .status none]

/-- A script in which closing the child's standard input fails with `EIO`. -/
def closeFails : List Reply :=
  [.pipe (.ok 0), .pipe (.ok 1), .pipe (.ok 2), .status none, .wrote 2 none, .status (some EIO)]

/-! ## Lemmas about the embedding -/

/-- The empty literal is the empty byte sequence. -/
theorem lit_empty : lit "" = [] := rfl

/-- Recording the calls changes neither the result of `Exec` nor the world it leaves. -/
theorem Exec_logged {σ : Type} (os : OS σ) (prog dir stdin : GoString) (argv : List GoString)
    (w : σ) (log : List Call) :
    (Exec (logged os) prog dir stdin argv (w, log)).map (fun r => (r.1, r.2.1)) =
      Exec os prog dir stdin argv w := by
  simp only [Exec, logged, record]
  rcases os.StdinPipe _ w with _ | ⟨_ | fi, w1⟩ <;> try rfl
  dsimp only
  rcases os.StdoutPipe _ w1 with _ | ⟨_ | fo, w2⟩ <;> try rfl
  dsimp only
  rcases os.StderrPipe _ w2 with _ | ⟨_ | fe, w3⟩ <;> try rfl
  dsimp only
  rcases os.Start _ w3 with _ | ⟨_ | e, w4⟩ <;> try rfl
  dsimp only
  rcases os.Write fi _ w4 with _ | ⟨⟨n, _ | e⟩, w5⟩ <;> try rfl
  dsimp only
  rcases os.Close fi w5 with _ | ⟨_ | e, w6⟩ <;> try rfl
  dsimp only
  rcases os.ReadAll fo w6 with _ | ⟨⟨b1, e1⟩, w7⟩ <;> try rfl
  dsimp only
  rcases os.ReadAll fe w7 with _ | ⟨⟨b2, e2⟩, w8⟩ <;> try rfl
  dsimp only
  rcases os.Wait _ w8 with _ | ⟨st, w9⟩ <;> rfl

/-- When the write to stdin fails, `Exec` returns its error. -/
theorem Exec_write_failure {σ : Type} (os : OS σ) (prog dir stdin : GoString)
    (argv : List GoString) (w0 w1 w2 w3 w4 w5 : σ) (fi fo fe : Fd) (n : Nat) (e : GoError)
    (h1 : os.StdinPipe (cmdOf prog dir argv) w0 = some (.ok fi, w1))
    (h2 : os.StdoutPipe (cmdOf prog dir argv) w1 = some (.ok fo, w2))
    (h3 : os.StderrPipe (cmdOf prog dir argv) w2 = some (.ok fe, w3))
    (h4 : os.Start (cmdOf prog dir argv) w3 = some (none, w4))
    (h5 : os.Write fi (toBytes stdin) w4 = some ((n, some e), w5)) :
    Exec os prog dir stdin argv w0 = some (⟨lit "", lit "", some e⟩, w5) := by
  simp [Exec, h1, h2, h3, h4, h5]

/-- When the write to stdin never returns, neither does `Exec`. -/
theorem Exec_blocks_at_write {σ : Type} (os : OS σ) (prog dir stdin : GoString)
    (argv : List GoString) (w0 w1 w2 w3 w4 : σ) (fi fo fe : Fd)
    (h1 : os.StdinPipe (cmdOf prog dir argv) w0 = some (.ok fi, w1))
    (h2 : os.StdoutPipe (cmdOf prog dir argv) w1 = some (.ok fo, w2))
    (h3 : os.StderrPipe (cmdOf prog dir argv) w2 = some (.ok fe, w3))
    (h4 : os.Start (cmdOf prog dir argv) w3 = some (none, w4))
    (h5 : os.Write fi (toBytes stdin) w4 = none) :
    Exec os prog dir stdin argv w0 = none := by
  simp [Exec, h1, h2, h3, h4, h5]

/-- When the read of stdout never returns, neither does `Exec`. -/
theorem Exec_blocks_at_read {σ : Type} (os : OS σ) (prog dir stdin : GoString)
    (argv : List GoString) (w0 w1 w2 w3 w4 w5 w6 : σ) (fi fo fe : Fd) (n : Nat)
    (h1 : os.StdinPipe (cmdOf prog dir argv) w0 = some (.ok fi, w1))
    (h2 : os.StdoutPipe (cmdOf prog dir argv) w1 = some (.ok fo, w2))
    (h3 : os.StderrPipe (cmdOf prog dir argv) w2 = some (.ok fe, w3))
    (h4 : os.Start (cmdOf prog dir argv) w3 = some (none, w4))
    (h5 : os.Write fi (toBytes stdin) w4 = some ((n, none), w5))
    (h6 : os.Close fi w5 = some (none, w6))
    (h7 : os.ReadAll fo w6 = none) :
    Exec os prog dir stdin argv w0 = none := by
  simp [Exec, h1, h2, h3, h4, h5, h6, h7]

/-- Every step of the child uses up some of its remaining work. -/
theorem childStep_work {cap : Nat} {s s1 : Sys} (h : childStep cap s = some s1) :
    work s1 < work s := by
  obtain ⟨fds, life, ops, code, inBuf, inOpen, outBuf, errBuf, sched⟩ := s
  unfold childStep at h
  by_cases hl : life = .running
  · subst hl
    rcases ops with _ | ⟨op, rest⟩
    · simp at h; subst h; simp [work]
    · cases op with
      | out b =>
        simp only [if_true] at h
        split at h
        · simp at h; subst h; simp [work, opWork]
        · split at h
          · simp at h
          · simp at h; subst h; simp [work, opWork]; omega
      | err b =>
        simp only [if_true] at h
        split at h
        · simp at h; subst h; simp [work, opWork]
        · split at h
          · simp at h
          · simp at h; subst h; simp [work, opWork]; omega
      | cat buf held =>
        simp only [if_true] at h
        split at h
        · rename_i hheld
          split at h
          · split at h
            · simp at h
            · simp at h; subst h; simp [work, opWork]
          · rename_i hne
            split at h
            · simp at h
            · simp at h; subst h
              have : 0 < inBuf.length := List.length_pos.mpr hne
              simp [work, opWork, hheld]
              omega
        · rename_i hheld
          have : 0 < held.length := List.length_pos.mpr hheld
          split at h
          · simp at h; subst h; simp [work, opWork]; omega
          · split at h
            · simp at h
            · simp at h; subst h; simp [work, opWork]; omega
  · simp [hl] at h

/-- A child that is not running takes no step. -/
theorem childStep_idle {cap : Nat} {s : Sys} (hl : s.life ≠ .running) :
    childStep cap s = none := by
  simp [childStep, hl]

/-- The step budget of `drain` never runs out. -/
theorem drain_budget (cap : Nat) (e : Bool) (n : Nat) :
    ∀ (s : Sys) (acc : Bytes), work s < n → drain cap e n s acc ≠ none := by
  induction n with
  | zero => intro s acc h; omega
  | succ n ih =>
    intro s acc hw
    unfold drain
    cases e
    · simp only [Bool.false_eq_true, if_false]
      split
      · simp
      · cases h : childStep cap { s with outBuf := [] } with
        | none => simp
        | some s2 =>
          simp only
          apply ih
          have h1 := childStep_work h
          have h2 : work { s with outBuf := [] } = work s := rfl
          omega
    · simp only [if_true]
      split
      · simp
      · cases h : childStep cap { s with errBuf := [] } with
        | none => simp
        | some s2 =>
          simp only
          apply ih
          have h1 := childStep_work h
          have h2 : work { s with errBuf := [] } = work s := rfl
          omega

/-- The step budget of `settle` never runs out. -/
theorem settle_budget (cap : Nat) (n : Nat) :
    ∀ s : Sys, work s < n → settle cap n s ≠ none := by
  induction n with
  | zero => intro s h; omega
  | succ n ih =>
    intro s hw
    unfold settle
    split
    · simp
    · cases h : childStep cap s with
      | none => simp
      | some s2 =>
        simp only
        apply ih
        have h1 := childStep_work h
        omega

/-- The step budget of `pump` never runs out. -/
theorem pump_budget (cap : Nat) (n : Nat) :
    ∀ (s : Sys) (p : Bytes) (d : Nat), 3 * p.length + work s < n → pump cap n s p d ≠ none := by
  induction n with
  | zero => intro s p d h; omega
  | succ n ih =>
    intro s p d hw
    unfold pump
    split
    · simp
    · split
      · simp
      · split
        · simp
        · rename_i hfit
          cases h : childStep cap { s with inBuf := s.inBuf ++ p.take (cap - s.inBuf.length) } with
          | none => simp
          | some s2 =>
            simp only
            apply ih
            have h1 := childStep_work h
            have h2 : work { s with inBuf := s.inBuf ++ p.take (cap - s.inBuf.length) }
                = work s + 2 * (cap - s.inBuf.length) := by
              simp [work]
              omega
            simp only [List.length_drop]
            omega

/-- In `px`, a write that never returns is a caller and a child waiting for each other. -/
theorem px_Write_blocked (m : Machine) (fd : Fd) (b : Bytes) (s : Sys)
    (h : (px m).Write fd b s = none) :
    pump m.cap (3 * b.length + work (tick m.cap s) + 1) (tick m.cap s) b 0 = some none := by
  have h1 : (if fd = 0 ∧ fd ∈ (tick m.cap s).fds then
      (pump m.cap (3 * b.length + work (tick m.cap s) + 1) (tick m.cap s) b 0).join
    else some ((0, some EBADF), tick m.cap s)) = none := h
  split at h1
  · have hb := pump_budget m.cap (3 * b.length + work (tick m.cap s) + 1)
      (tick m.cap s) b 0 (Nat.lt_succ_self _)
    cases hp : pump m.cap (3 * b.length + work (tick m.cap s) + 1) (tick m.cap s) b 0 with
    | none => exact absurd hp hb
    | some r =>
      rw [hp] at h1
      cases r with
      | none => rfl
      | some v => simp at h1
  · simp at h1

/-- In `px`, a read that never returns is a caller and a child waiting for each other. -/
theorem px_ReadAll_blocked (m : Machine) (fd : Fd) (s : Sys)
    (h : (px m).ReadAll fd s = none) :
    drain m.cap (decide (fd = 2)) (work (tick m.cap s) + 1) (tick m.cap s) [] = some none := by
  have h1 : (if (fd = 1 ∨ fd = 2) ∧ fd ∈ (tick m.cap s).fds then
      ((drain m.cap (decide (fd = 2)) (work (tick m.cap s) + 1) (tick m.cap s) []).join).map
        fun r => ((r.1, (none : Option GoError)), r.2)
    else some (([], some EBADF), tick m.cap s)) = none := h
  split at h1
  · have hb := drain_budget m.cap (decide (fd = 2)) (work (tick m.cap s) + 1)
      (tick m.cap s) [] (Nat.lt_succ_self _)
    cases hp : drain m.cap (decide (fd = 2)) (work (tick m.cap s) + 1) (tick m.cap s) [] with
    | none => exact absurd hp hb
    | some r =>
      rw [hp] at h1
      cases r with
      | none => rfl
      | some v => simp at h1
  · simp at h1

/-- In `px`, a wait that never returns is a child waiting on a full pipe. -/
theorem px_Wait_blocked (m : Machine) (cmd : Cmd) (s : Sys) (h : (px m).Wait cmd s = none) :
    settle m.cap (work (tick m.cap s) + 1) (tick m.cap s) = some none := by
  have h1 : (if (tick m.cap s).life = .running ∨ (tick m.cap s).life = .zombie then
      ((settle m.cap (work (tick m.cap s) + 1) (tick m.cap s)).join).map
        fun s1 => (exitStatus s1.code, { s1 with life := .reaped, fds := [], inOpen := false })
    else some (some (.Msg "exec: not started or Wait was already called"), tick m.cap s))
      = none := h
  split at h1
  · have hb := settle_budget m.cap (work (tick m.cap s) + 1) (tick m.cap s)
      (Nat.lt_succ_self _)
    cases hp : settle m.cap (work (tick m.cap s) + 1) (tick m.cap s) with
    | none => exact absurd hp hb
    | some r =>
      rw [hp] at h1
      cases r with
      | none => rfl
      | some v => simp at h1
  · simp at h1

/-! ## Runs that wait, whatever the schedule -/

/-- Running a child that is not running changes nothing. -/
theorem childRun_idle {cap : Nat} (k : Nat) {s : Sys} (hl : s.life ≠ .running) :
    childRun cap k s = s := by
  cases k with
  | zero => rfl
  | succ k => simp [childRun, childStep_idle hl]

/-- A step of the child keeps what is known of its standard error. -/
theorem Pending.stepped {cap : Nat} {E : Bytes} {fds : List Fd} {s s1 : Sys}
    (t : Pending cap E fds s) (h : childStep cap s = some s1) : Pending cap E fds s1 := by
  obtain ⟨he, hr, hf, hlf⟩ := t
  obtain ⟨fds1, life, ops, code1, inBuf, inOpen, outBuf, errBuf, sched⟩ := s
  simp only at he hr hf hlf
  unfold childStep at h
  by_cases hl : life = .running
  · subst hl
    rcases ops with _ | ⟨op, rest⟩
    · simp at h; subst h
      exact ⟨he, hr, hf, Or.inr ⟨rfl, rfl⟩⟩
    · cases op with
      | out b =>
        simp only [if_true] at h
        split at h
        · simp at h; subst h
          exact ⟨by simpa [childErr] using he, hr, hf, Or.inl rfl⟩
        · split at h
          · simp at h
          · simp at h; subst h
            exact ⟨by simpa [childErr] using he, hr, hf, Or.inl rfl⟩
      | err b =>
        simp only [if_true] at h
        split at h
        · simp at h; subst h
          exact ⟨by simpa [childErr] using he, by simp; omega, hf, Or.inl rfl⟩
        · split at h
          · simp at h
          · simp at h; subst h
            refine ⟨?_, by simp; omega, hf, Or.inl rfl⟩
            rw [← he]
            simp only [childErr, List.append_assoc]
            rw [← List.append_assoc (List.take _ _), List.take_append_drop]
      | cat buf held =>
        simp only [if_true] at h
        (repeat' split at h) <;> simp at h <;> subst h <;>
          exact ⟨by simpa [childErr] using he, hr, hf, Or.inl rfl⟩
  · simp [hl] at h

/-- Any number of steps of the child keeps what is known of its standard error. -/
theorem Pending.ran {cap : Nat} {E : Bytes} {fds : List Fd} (k : Nat) :
    ∀ s : Sys, Pending cap E fds s → Pending cap E fds (childRun cap k s) := by
  induction k with
  | zero => intro s t; exact t
  | succ k ih =>
    intro s t
    unfold childRun
    cases h : childStep cap s with
    | none => exact t
    | some s1 => exact ih s1 (t.stepped h)

/-- The child's turn before a call keeps what is known of its standard error. -/
theorem Pending.ticked {cap : Nat} {E : Bytes} {fds : List Fd} {s : Sys}
    (t : Pending cap E fds s) : Pending cap E fds (tick cap s) := by
  unfold tick
  split
  · exact t
  · exact Pending.ran _ _ ⟨t.err, t.room, t.fds, t.life⟩

/-- A child with more to write to stderr than a pipe holds cannot have exited while
stderr is unread. -/
theorem Pending.alive {cap : Nat} {E : Bytes} {fds : List Fd} {s : Sys}
    (t : Pending cap E fds s) (hover : cap < E.length) : s.life = .running := by
  rcases t.life with h | ⟨_, hops⟩
  · exact h
  · have h1 := t.err
    have h2 := t.room
    rw [hops] at h1
    simp [childErr] at h1
    rw [h1] at h2
    omega

/-- Reading stdout never returns when the child has more to write to stderr than a
pipe holds. -/
theorem drain_never {cap : Nat} {E : Bytes} {fds : List Fd} (hover : cap < E.length)
    (n : Nat) :
    ∀ (s : Sys) (acc : Bytes), Pending cap E fds s → (drain cap false n s acc).join = none := by
  induction n with
  | zero => intro s acc _; rfl
  | succ n ih =>
    intro s acc t
    have t1 : Pending cap E fds { s with outBuf := [] } := ⟨t.err, t.room, t.fds, t.life⟩
    have hl := t.alive hover
    unfold drain
    simp only [Bool.false_eq_true, if_false]
    have hg : ({ s with outBuf := [] } : Sys).gone = false := by simp [Sys.gone, hl]
    rw [if_neg (by simp [hg])]
    cases h2 : childStep cap { s with outBuf := [] } with
    | none => rfl
    | some s2 =>
      simp only
      exact ih s2 _ (t1.stepped h2)

/-- In `px`, the three pipes are created and the child is started. -/
theorem px_bringup (m : Machine) (prog dir : GoString) (argv : List GoString) (img : Image)
    (sched : List Nat) (hbin : m.bin (cmdOf prog dir argv) = some img) :
    (px m).StdinPipe (cmdOf prog dir argv) (boot sched) =
      some (.ok 0, { boot sched with fds := [0], inOpen := true }) ∧
    (px m).StdoutPipe (cmdOf prog dir argv) { boot sched with fds := [0], inOpen := true } =
      some (.ok 1, { boot sched with fds := [0, 1], inOpen := true }) ∧
    (px m).StderrPipe (cmdOf prog dir argv) { boot sched with fds := [0, 1], inOpen := true } =
      some (.ok 2, { boot sched with fds := [0, 1, 2], inOpen := true }) ∧
    (px m).Start (cmdOf prog dir argv) { boot sched with fds := [0, 1, 2], inOpen := true } =
      some (none, started img sched) := by
  refine ⟨by simp [px, boot], by simp [px, boot], by simp [px, boot], ?_⟩
  simp [px, boot, hbin, started]

/-- Whatever the schedule, a child that writes more to stderr than a pipe can hold keeps
`Exec` (here with an empty payload) from ever returning: the pipes are created, the
child is started, the write and the close succeed, and then the read of stdout waits
for the child to exit while the child waits for room in the stderr pipe. -/
theorem px_stderr_overflow_blocks (m : Machine) (prog dir : GoString) (argv : List GoString)
    (img : Image) (sched : List Nat)
    (hbin : m.bin (cmdOf prog dir argv) = some img)
    (hover : m.cap < (childErr img.ops).length) :
    ∃ w5 w6 : Sys,
      (px m).Write 0 (toBytes (lit "")) (started img sched) = some ((0, none), w5) ∧
      (px m).Close 0 w5 = some (none, w6) ∧
      (px m).ReadAll 1 w6 = none ∧
      Exec (px m) prog dir (lit "") argv (boot sched) = none := by
  have t0 : Pending m.cap (childErr img.ops) [0, 1, 2] (started img sched) :=
    ⟨by simp [started], by simp [started], rfl, Or.inl rfl⟩
  have t1 : Pending m.cap (childErr img.ops) [0, 1, 2] (tick m.cap (started img sched)) :=
    t0.ticked
  have h5 : (px m).Write 0 (toBytes (lit "")) (started img sched) =
      some ((0, none), tick m.cap (started img sched)) := by
    show (if (0 : Fd) = 0 ∧ 0 ∈ (tick m.cap (started img sched)).fds then
        (pump m.cap (3 * (toBytes (lit "")).length + work (tick m.cap (started img sched)) + 1)
          (tick m.cap (started img sched)) (toBytes (lit "")) 0).join
      else some ((0, some EBADF), tick m.cap (started img sched))) = _
    rw [if_pos ⟨rfl, by rw [t1.fds]; simp⟩]
    simp [pump, toBytes, lit_empty]
  have t2 : Pending m.cap (childErr img.ops) [0, 1, 2]
      (tick m.cap (tick m.cap (started img sched))) := t1.ticked
  have h6 : (px m).Close 0 (tick m.cap (started img sched)) =
      some (none, { tick m.cap (tick m.cap (started img sched)) with
        fds := (tick m.cap (tick m.cap (started img sched))).fds.erase 0, inOpen := false }) := by
    show (if 0 ∈ (tick m.cap (tick m.cap (started img sched))).fds then _ else _) = _
    rw [if_pos (by rw [t2.fds]; simp)]
    rfl
  have t3 : Pending m.cap (childErr img.ops) [1, 2]
      { tick m.cap (tick m.cap (started img sched)) with
        fds := (tick m.cap (tick m.cap (started img sched))).fds.erase 0, inOpen := false } :=
    ⟨t2.err, t2.room, by show List.erase _ 0 = _; rw [t2.fds]; rfl, t2.life⟩
  have h7 : (px m).ReadAll 1 { tick m.cap (tick m.cap (started img sched)) with
        fds := (tick m.cap (tick m.cap (started img sched))).fds.erase 0, inOpen := false }
      = none := by
    have t4 : Pending m.cap (childErr img.ops) [1, 2]
        (tick m.cap { tick m.cap (tick m.cap (started img sched)) with
          fds := (tick m.cap (tick m.cap (started img sched))).fds.erase 0, inOpen := false }) :=
      t3.ticked
    show (if ((1 : Fd) = 1 ∨ (1 : Fd) = 2) ∧ 1 ∈ (tick m.cap _).fds then
        ((drain m.cap (decide ((1 : Fd) = 2)) _ _ []).join).map _ else _) = none
    rw [if_pos ⟨Or.inl rfl, by rw [t4.fds]; simp⟩]
    have hd : decide ((1 : Fd) = 2) = false := by decide
    rw [hd, drain_never hover _ _ _ t4]
    rfl
  obtain ⟨b1, b2, b3, b4⟩ := px_bringup m prog dir argv img sched hbin
  exact ⟨_, _, h5, h6, h7,
    Exec_blocks_at_read (px m) prog dir (lit "") argv (boot sched) _ _ _ _ _ _ 0 1 2 0
      b1 b2 b3 b4 h5 h6 h7⟩

/-- A copying child with nothing to copy yet cannot move. -/
theorem tick_started_cat (cap buf code : Nat) (sched : List Nat) :
    tick cap (started ⟨[.cat buf []], code⟩ sched) = started ⟨[.cat buf []], code⟩ sched.tail := by
  unfold tick
  cases sched with
  | nil => rfl
  | cons k rest =>
    cases k with
    | zero => rfl
    | succ k => rfl

/-- A step of a copying child moves bytes from the stdin pipe to its buffer or from its
buffer to the stdout pipe, and nothing else. -/
theorem childStep_cat {cap buf : Nat} {held : Bytes} {s s1 : Sys}
    (h : childStep cap s = some s1) (hops : s.ops = [.cat buf held]) (hio : s.inOpen = true)
    (hheld : held.length ≤ buf) (hout : s.outBuf.length ≤ cap) :
    ∃ held1 : Bytes, s1.ops = [.cat buf held1] ∧ held1.length ≤ buf ∧ s1.life = .running ∧
      s1.inOpen = true ∧ s1.outBuf.length ≤ cap ∧ s1.inBuf.length ≤ s.inBuf.length ∧
      s1.inBuf.length + held1.length + s1.outBuf.length =
        s.inBuf.length + held.length + s.outBuf.length := by
  obtain ⟨fds, life, ops, code, inBuf, inOpen, outBuf, errBuf, sched⟩ := s
  simp only at hops hio hout
  subst hops hio
  unfold childStep at h
  by_cases hl : life = .running
  · subst hl
    simp only [if_true] at h
    split at h
    · rename_i hnil
      subst hnil
      split at h
      · simp at h
      · split at h
        · simp at h
        · simp at h; subst h
          refine ⟨List.take buf inBuf, rfl, by simp, rfl, rfl, hout, by simp, ?_⟩
          simp
          omega
    · split at h
      · simp at h; subst h
        refine ⟨[], rfl, by simp, rfl, rfl, by simp; omega, le_refl _, ?_⟩
        simp
        omega
      · split at h
        · simp at h
        · simp at h; subst h
          refine ⟨List.drop (cap - outBuf.length) held, rfl, by simp; omega, rfl, rfl,
            by simp; omega, le_refl _, ?_⟩
          simp
          omega
  · simp [hl] at h

/-- Writing to a copying child never returns when the payload, the two pipes and the
child's buffer together hold more than two pipe capacities and a buffer. -/
theorem pump_never {cap buf : Nat} (n : Nat) :
    ∀ (s : Sys) (p held : Bytes) (d : Nat), s.ops = [.cat buf held] → s.life = .running →
      s.inOpen = true → held.length ≤ buf → s.inBuf.length ≤ cap → s.outBuf.length ≤ cap →
      2 * cap + buf < p.length + s.inBuf.length + held.length + s.outBuf.length →
      (pump cap n s p d).join = none := by
  induction n with
  | zero => intro s p held d _ _ _ _ _ _ _; rfl
  | succ n ih =>
    intro s p held d hops hl hio hheld hin hout hover
    unfold pump
    have hp : p ≠ [] := by
      intro h; rw [h] at hover; simp at hover; omega
    have hg : s.gone = false := by simp [Sys.gone, hl]
    have hfit : ¬ p.length ≤ cap - s.inBuf.length := by omega
    rw [if_neg hp, if_neg (by simp [hg]), if_neg hfit]
    cases h2 : childStep cap { s with inBuf := s.inBuf ++ p.take (cap - s.inBuf.length) } with
    | none => rfl
    | some s2 =>
      simp only
      obtain ⟨held1, c1, c2, c3, c4, c5, c6, c7⟩ := childStep_cat h2 hops hio hheld hout
      simp only [List.length_append, List.length_take] at c6 c7
      apply ih s2 _ held1 _ c1 c3 c4 c2
      · omega
      · exact c5
      · simp only [List.length_drop]
        omega

/-- Whatever the schedule, a payload longer than the stdin pipe, the child's buffer and
the stdout pipe together, given to a child that copies its input to its output, keeps
`Exec` from ever returning: the write to stdin waits for room that the child cannot
make, because `Exec` reads no output before it has written all input. -/
theorem px_cat_overflow_blocks (m : Machine) (prog dir stdin : GoString)
    (argv : List GoString) (buf code : Nat) (sched : List Nat)
    (hbin : m.bin (cmdOf prog dir argv) = some ⟨[.cat buf []], code⟩)
    (hover : 2 * m.cap + buf < stdin.length) :
    (px m).Write 0 (toBytes stdin) (started ⟨[.cat buf []], code⟩ sched) = none ∧
    Exec (px m) prog dir stdin argv (boot sched) = none := by
  have h5 : (px m).Write 0 (toBytes stdin) (started ⟨[.cat buf []], code⟩ sched) = none := by
    show (if (0 : Fd) = 0 ∧ 0 ∈ (tick m.cap (started ⟨[.cat buf []], code⟩ sched)).fds then
        (pump m.cap (3 * (toBytes stdin).length +
          work (tick m.cap (started ⟨[.cat buf []], code⟩ sched)) + 1)
          (tick m.cap (started ⟨[.cat buf []], code⟩ sched)) (toBytes stdin) 0).join
      else some ((0, some EBADF), tick m.cap (started ⟨[.cat buf []], code⟩ sched))) = none
    rw [tick_started_cat, if_pos ⟨rfl, by simp [started]⟩]
    exact pump_never _ _ _ [] _ rfl rfl rfl (by simp) (by simp [started]) (by simp [started])
      (by simpa [started, toBytes] using hover)
  obtain ⟨b1, b2, b3, b4⟩ := px_bringup m prog dir argv ⟨[.cat buf []], code⟩ sched hbin
  exact ⟨h5, Exec_blocks_at_write (px m) prog dir stdin argv (boot sched) _ _ _ _ 0 1 2
    b1 b2 b3 b4 h5⟩

/-- A child with nothing to do is, after its turn, either still about to exit or gone. -/
theorem tick_started_nil (cap code : Nat) (sched : List Nat) :
    tick cap (started ⟨[], code⟩ sched) = started ⟨[], code⟩ sched.tail ∨
    tick cap (started ⟨[], code⟩ sched) =
      { started ⟨[], code⟩ sched.tail with life := .zombie } := by
  unfold tick
  cases sched with
  | nil => exact Or.inl rfl
  | cons k rest =>
    cases k with
    | zero => exact Or.inl rfl
    | succ k =>
      right
      show childRun cap (k + 1) _ = _
      unfold childRun
      simp only [childStep, started, if_true]
      exact childRun_idle k (by simp)

/-- Whatever the schedule, a payload longer than the stdin pipe, given to a child that
exits without reading, makes the write to stdin fail with `EPIPE`, and `Exec` returns
that error with empty stdout and stderr. -/
theorem px_unread_overflow_EPIPE (m : Machine) (prog dir stdin : GoString)
    (argv : List GoString) (code : Nat) (sched : List Nat)
    (hbin : m.bin (cmdOf prog dir argv) = some ⟨[], code⟩)
    (hover : m.cap < stdin.length) :
    ∃ (n : Nat) (w5 : Sys),
      (px m).Write 0 (toBytes stdin) (started ⟨[], code⟩ sched) = some ((n, some EPIPE), w5) ∧
      Exec (px m) prog dir stdin argv (boot sched) = some (⟨lit "", lit "", some EPIPE⟩, w5) := by
  have hne : stdin ≠ [] := by
    intro h; rw [h] at hover; simp at hover
  have hdrop : List.drop m.cap stdin ≠ [] := by
    intro h
    have := congrArg List.length h
    simp at this
    omega
  have key : ∃ (n : Nat) (w5 : Sys),
      (px m).Write 0 (toBytes stdin) (started ⟨[], code⟩ sched) =
        some ((n, some EPIPE), w5) := by
    show ∃ (n : Nat) (w5 : Sys),
      (if (0 : Fd) = 0 ∧ 0 ∈ (tick m.cap (started ⟨[], code⟩ sched)).fds then
        (pump m.cap (3 * (toBytes stdin).length +
          work (tick m.cap (started ⟨[], code⟩ sched)) + 1)
          (tick m.cap (started ⟨[], code⟩ sched)) (toBytes stdin) 0).join
      else some ((0, some EBADF), tick m.cap (started ⟨[], code⟩ sched))) =
        some ((n, some EPIPE), w5)
    rcases tick_started_nil m.cap code sched with h | h
    · rw [h, if_pos ⟨rfl, by simp [started]⟩]
      obtain ⟨k, hk⟩ : ∃ k, 3 * (toBytes stdin).length +
          work (started ⟨[], code⟩ sched.tail) + 1 = k + 2 :=
        ⟨3 * (toBytes stdin).length + work (started ⟨[], code⟩ sched.tail) - 1, by
          have : 0 < stdin.length := List.length_pos.mpr hne
          simp only [toBytes]; omega⟩
      rw [hk]
      refine ⟨0 + (m.cap - 0),
        { started ⟨[], code⟩ sched.tail with life := .zombie, inBuf := List.take m.cap stdin },
        ?_⟩
      simp [pump, started, Sys.gone, childStep, toBytes, hne, hdrop, Nat.not_le.mpr hover]
    · rw [h, if_pos ⟨rfl, by simp [started]⟩]
      refine ⟨0, { started ⟨[], code⟩ sched.tail with life := .zombie }, ?_⟩
      simp [pump, started, Sys.gone, toBytes, hne]
  obtain ⟨n, w5, h5⟩ := key
  obtain ⟨b1, b2, b3, b4⟩ := px_bringup m prog dir argv ⟨[], code⟩ sched hbin
  exact ⟨n, w5, h5, Exec_write_failure (px m) prog dir stdin argv (boot sched) _ _ _ _ w5
    0 1 2 n EPIPE b1 b2 b3 b4 h5⟩

/-! # The claims -/

/-! ## Failure to start -/

/-- C1: if the three pipes are created and starting the process fails with error `e`,
`Exec` returns `("", "", e)`, and the calls it has made are exactly the three pipe
creations and `Start`: no write to stdin, no read of stdout or stderr, no wait. -/
theorem Exec_start_failure {σ : Type} (os : OS σ) (prog dir stdin : GoString)
    (argv : List GoString) (w0 w1 w2 w3 w4 : σ) (fi fo fe : Fd) (e : GoError)
    (h1 : os.StdinPipe (cmdOf prog dir argv) w0 = some (.ok fi, w1))
    (h2 : os.StdoutPipe (cmdOf prog dir argv) w1 = some (.ok fo, w2))
    (h3 : os.StderrPipe (cmdOf prog dir argv) w2 = some (.ok fe, w3))
    (h4 : os.Start (cmdOf prog dir argv) w3 = some (some e, w4)) :
    Exec (logged os) prog dir stdin argv (w0, []) =
      some (⟨lit "", lit "", some e⟩,
        (w4, [.StdinPipe, .StdoutPipe, .StderrPipe, .Start (cmdOf prog dir argv)])) := by
  simp [Exec, logged, record, h1, h2, h3, h4]

/-- C1, at a concrete input: a program that does not exist, in the pipe model. -/
theorem Exec_start_failure_witness :
    (px (demo 2)).Start (cmdOf (lit "/no/such") (lit "") [])
        { boot [] with fds := [0, 1, 2], inOpen := true } =
      some (some ENOENT, boot []) ∧
    Exec (logged (px (demo 2))) (lit "/no/such") (lit "") (lit "hi") [] (boot [], []) =
      some (⟨lit "", lit "", some ENOENT⟩,
        (boot [], [.StdinPipe, .StdoutPipe, .StderrPipe,
          .Start (cmdOf (lit "/no/such") (lit "") [])])) :=
  ⟨by rfl, Exec_start_failure (px (demo 2)) (lit "/no/such") (lit "") (lit "hi") [] (boot [])
    { boot [] with fds := [0], inOpen := true } { boot [] with fds := [0, 1], inOpen := true }
    { boot [] with fds := [0, 1, 2], inOpen := true } (boot []) 0 1 2 ENOENT
    (by rfl) (by rfl) (by rfl) (by rfl)⟩

/-! ## The path on which everything succeeds -/

/-- C2 (as stated) fails: with pipes of 65536 bytes and a child that writes 65537 bytes
to stderr before it writes to stdout, the three pipes are created, the process is
started, the write to stdin and the close of stdin succeed, and `Exec` returns
nothing: the read of stdout never returns. -/
theorem four_successes_no_return :
    (demo 65536).bin (cmdOf (lit "flood") (lit "") []) =
      some ⟨[.err (List.replicate 65537 101), .out (List.replicate 65537 111)], 42⟩ ∧
    ((px (demo 65536)).StdinPipe (cmdOf (lit "flood") (lit "") []) (boot []) =
        some (.ok 0, { boot [] with fds := [0], inOpen := true }) ∧
      (px (demo 65536)).StdoutPipe (cmdOf (lit "flood") (lit "") [])
          { boot [] with fds := [0], inOpen := true } =
        some (.ok 1, { boot [] with fds := [0, 1], inOpen := true }) ∧
      (px (demo 65536)).StderrPipe (cmdOf (lit "flood") (lit "") [])
          { boot [] with fds := [0, 1], inOpen := true } =
        some (.ok 2, { boot [] with fds := [0, 1, 2], inOpen := true }) ∧
      (px (demo 65536)).Start (cmdOf (lit "flood") (lit "") [])
          { boot [] with fds := [0, 1, 2], inOpen := true } =
        some (none,
          started ⟨[.err (List.replicate 65537 101), .out (List.replicate 65537 111)], 42⟩ [])) ∧
    ∃ w5 w6 : Sys,
      (px (demo 65536)).Write 0 (toBytes (lit ""))
          (started ⟨[.err (List.replicate 65537 101), .out (List.replicate 65537 111)], 42⟩ []) =
        some ((0, none), w5) ∧
      (px (demo 65536)).Close 0 w5 = some (none, w6) ∧
      (px (demo 65536)).ReadAll 1 w6 = none ∧
      Exec (px (demo 65536)) (lit "flood") (lit "") (lit "") [] (boot []) = none := by
  have hbin : (demo 65536).bin (cmdOf (lit "flood") (lit "") []) =
      some ⟨[.err (List.replicate 65537 101), .out (List.replicate 65537 111)], 42⟩ := rfl
  refine ⟨hbin, px_bringup _ _ _ _ _ [] hbin, px_stderr_overflow_blocks _ _ _ _ _ [] hbin ?_⟩
  show 65536 < (List.replicate 65537 (101 : UInt8) ++ []).length
  rw [List.length_append, List.length_replicate]
  decide

/-- C2 (amended): when pipe creation, start, the write to stdin and the close of stdin
succeed, the result of `Exec` is made of the read of stdout, then the read of stderr,
then `cmd.Wait()`, and there is a result exactly when these three calls return: it is
the bytes read from stdout, the bytes read from stderr, and the result of the wait.
In particular, when the wait reports exit code 42 the outcome is an exit error with code
42 together with everything read, and when both reads deliver nothing and the wait
reports exit code 0 the result is `("", "", nil)`. -/
theorem Exec_success {σ : Type} (os : OS σ) (prog dir stdin : GoString)
    (argv : List GoString) (w0 w1 w2 w3 w4 w5 w6 : σ) (fi fo fe : Fd) (n : Nat)
    (h1 : os.StdinPipe (cmdOf prog dir argv) w0 = some (.ok fi, w1))
    (h2 : os.StdoutPipe (cmdOf prog dir argv) w1 = some (.ok fo, w2))
    (h3 : os.StderrPipe (cmdOf prog dir argv) w2 = some (.ok fe, w3))
    (h4 : os.Start (cmdOf prog dir argv) w3 = some (none, w4))
    (h5 : os.Write fi (toBytes stdin) w4 = some ((n, none), w5))
    (h6 : os.Close fi w5 = some (none, w6)) :
    Exec os prog dir stdin argv w0 =
      (os.ReadAll fo w6).bind (fun r1 =>
        (os.ReadAll fe r1.2).bind (fun r2 =>
          (os.Wait (cmdOf prog dir argv) r2.2).map (fun r3 =>
            (⟨ofBytes r1.1.1, ofBytes r2.1.1, r3.1⟩, r3.2)))) ∧
    (∀ (out : Bytes) (e1 : Option GoError) (w7 : σ) (err : Bytes) (e2 : Option GoError)
        (w8 : σ) (st : Option GoError) (w9 : σ),
      os.ReadAll fo w6 = some ((out, e1), w7) → os.ReadAll fe w7 = some ((err, e2), w8) →
      os.Wait (cmdOf prog dir argv) w8 = some (st, w9) →
      Exec os prog dir stdin argv w0 = some (⟨ofBytes out, ofBytes err, st⟩, w9)) ∧
    (∀ (out : Bytes) (e1 : Option GoError) (w7 : σ) (err : Bytes) (e2 : Option GoError)
        (w8 w9 : σ),
      os.ReadAll fo w6 = some ((out, e1), w7) → os.ReadAll fe w7 = some ((err, e2), w8) →
      os.Wait (cmdOf prog dir argv) w8 = some (exitStatus 42, w9) →
      Exec os prog dir stdin argv w0 =
        some (⟨ofBytes out, ofBytes err, some (.ExitError 42)⟩, w9)) ∧
    (∀ (e1 : Option GoError) (w7 : σ) (e2 : Option GoError) (w8 w9 : σ),
      os.ReadAll fo w6 = some (([], e1), w7) → os.ReadAll fe w7 = some (([], e2), w8) →
      os.Wait (cmdOf prog dir argv) w8 = some (exitStatus 0, w9) →
      Exec os prog dir stdin argv w0 = some (⟨lit "", lit "", none⟩, w9)) := by
  refine ⟨?_, ?_, ?_, ?_⟩
  · simp only [Exec, h1, h2, h3, h4, h5, h6]
    rcases os.ReadAll fo w6 with _ | ⟨⟨b1, e1⟩, w7⟩
    · rfl
    · simp only [Option.some_bind]
      rcases os.ReadAll fe w7 with _ | ⟨⟨b2, e2⟩, w8⟩
      · rfl
      · simp only [Option.some_bind]
        rcases os.Wait (cmdOf prog dir argv) w8 with _ | ⟨st, w9⟩ <;> rfl
  · intro out e1 w7 err e2 w8 st w9 h7 h8 h9
    simp [Exec, h1, h2, h3, h4, h5, h6, h7, h8, h9]
  · intro out e1 w7 err e2 w8 w9 h7 h8 h9
    simp [Exec, h1, h2, h3, h4, h5, h6, h7, h8, h9, exitStatus]
  · intro e1 w7 e2 w8 w9 h7 h8 h9
    simp [Exec, h1, h2, h3, h4, h5, h6, h7, h8, h9, exitStatus, ofBytes, lit_empty]

/-- C2 (amended), at two concrete inputs in the pipe simulation: a child that writes to
both streams and exits with code 42, and a child that writes nothing and exits with
code 0. -/
theorem Exec_success_witness :
    Exec (px (demo 65536)) (lit "report") (lit "") (lit "") [] (boot []) =
      some (⟨lit "ok\n", lit "!", some (.ExitError 42)⟩,
        { boot [] with life := .reaped, code := 42 }) ∧
    Exec (px (demo 65536)) (lit "true") (lit "") (lit "") [] (boot []) =
      some (⟨lit "", lit "", none⟩, { boot [] with life := .reaped }) :=
  ⟨(Exec_success (px (demo 65536)) (lit "report") (lit "") (lit "") [] (boot [])
      { boot [] with fds := [0], inOpen := true } { boot [] with fds := [0, 1], inOpen := true }
      { boot [] with fds := [0, 1, 2], inOpen := true }
      (started ⟨[.out (lit "ok"), .err (lit "!"), .out (lit "\n")], 42⟩ [])
      (started ⟨[.out (lit "ok"), .err (lit "!"), .out (lit "\n")], 42⟩ [])
      { started ⟨[.out (lit "ok"), .err (lit "!"), .out (lit "\n")], 42⟩ [] with
        fds := [1, 2], inOpen := false }
      0 1 2 0 (by rfl) (by rfl) (by rfl) (by rfl) (by rfl) (by rfl)).2.2.1
      (lit "ok\n") none
      { boot [] with fds := [1, 2], life := .zombie, code := 42, errBuf := lit "!" }
      (lit "!") none
      { boot [] with fds := [1, 2], life := .zombie, code := 42 }
      { boot [] with life := .reaped, code := 42 }
      (by rfl) (by rfl) (by rfl),
    (Exec_success (px (demo 65536)) (lit "true") (lit "") (lit "") [] (boot [])
      { boot [] with fds := [0], inOpen := true } { boot [] with fds := [0, 1], inOpen := true }
      { boot [] with fds := [0, 1, 2], inOpen := true }
      (started ⟨[], 0⟩ []) (started ⟨[], 0⟩ [])
      { started ⟨[], 0⟩ [] with fds := [1, 2], inOpen := false }
      0 1 2 0 (by rfl) (by rfl) (by rfl) (by rfl) (by rfl) (by rfl)).2.2.2
      none { boot [] with fds := [1, 2], life := .zombie } none
      { boot [] with fds := [1, 2], life := .zombie } { boot [] with life := .reaped }
      (by rfl) (by rfl) (by rfl)⟩

/-! ## A child that copies its input to its output -/

/-- C3 (as stated) fails: with pipes of 65536 bytes, a child that copies its input to
its output through a buffer of 131072 bytes, and a payload of 1048576 bytes, the write
to stdin never returns (the stdin pipe, the child's buffer and the stdout pipe are
full, and `Exec` has not begun to read), whether the child runs only when the caller
waits or as early as it can. -/
theorem cat_large_payload_blocks :
    (demo 65536).bin (cmdOf (lit "cat") (lit "") []) = some ⟨[.cat 131072 []], 0⟩ ∧
    (px (demo 65536)).Write 0 (toBytes (List.replicate 1048576 0))
      (started ⟨[.cat 131072 []], 0⟩ []) = none ∧
    Exec (px (demo 65536)) (lit "cat") (lit "") (List.replicate 1048576 0) [] (boot []) = none ∧
    Exec (px (demo 65536)) (lit "cat") (lit "") (List.replicate 1048576 0) []
      (boot [9, 9, 9, 9, 9]) = none := by
  have hbin : (demo 65536).bin (cmdOf (lit "cat") (lit "") []) = some ⟨[.cat 131072 []], 0⟩ :=
    rfl
  have hover : 2 * (demo 65536).cap + 131072 < (List.replicate 1048576 (0 : UInt8)).length := by
    rw [List.length_replicate]
    decide
  exact ⟨hbin, (px_cat_overflow_blocks _ _ _ _ _ _ _ [] hbin hover).1,
    (px_cat_overflow_blocks _ _ _ _ _ _ _ [] hbin hover).2,
    (px_cat_overflow_blocks _ _ _ _ _ _ _ [9, 9, 9, 9, 9] hbin hover).2⟩

/-- C3 (amended): for every payload `P`, `Exec` writes exactly the bytes of `P` to the
child's stdin and then closes it, before it reads anything; when that write and that
close succeed and the child copies its input to its output, so that the read of stdout
delivers the bytes that were written, and the read of stderr and the wait return, the
stdout that `Exec` returns is `P` exactly. -/
theorem Exec_cat_roundtrip {σ : Type} (os : OS σ) (prog dir P : GoString)
    (argv : List GoString) (w0 w1 w2 w3 w4 w5 w6 w7 w8 w9 : σ) (fi fo fe : Fd) (n : Nat)
    (err : Bytes) (e1 e2 st : Option GoError)
    (h1 : os.StdinPipe (cmdOf prog dir argv) w0 = some (.ok fi, w1))
    (h2 : os.StdoutPipe (cmdOf prog dir argv) w1 = some (.ok fo, w2))
    (h3 : os.StderrPipe (cmdOf prog dir argv) w2 = some (.ok fe, w3))
    (h4 : os.Start (cmdOf prog dir argv) w3 = some (none, w4))
    (h5 : os.Write fi (toBytes P) w4 = some ((n, none), w5))
    (h6 : os.Close fi w5 = some (none, w6))
    (h7 : os.ReadAll fo w6 = some ((toBytes P, e1), w7))
    (h8 : os.ReadAll fe w7 = some ((err, e2), w8))
    (h9 : os.Wait (cmdOf prog dir argv) w8 = some (st, w9)) :
    Exec (logged os) prog dir P argv (w0, []) =
      some (⟨P, ofBytes err, st⟩,
        (w9, [.StdinPipe, .StdoutPipe, .StderrPipe, .Start (cmdOf prog dir argv),
          .Write fi (toBytes P), .Close fi, .ReadAll fo, .ReadAll fe, .Wait])) := by
  simp [Exec, logged, record, h1, h2, h3, h4, h5, h6, h7, h8, h9]
  rfl

/-- C3 (amended), at a concrete input in the pipe simulation: `Exec("cat", "", "hello\n")`
returns stdout `"hello\n"`, stderr `""` and no error. -/
theorem Exec_cat_roundtrip_witness :
    Exec (logged (px (demo 65536))) (lit "cat") (lit "") (lit "hello\n") [] (boot [], []) =
      some (⟨lit "hello\n", lit "", none⟩,
        ({ boot [] with life := .reaped },
          [.StdinPipe, .StdoutPipe, .StderrPipe, .Start (cmdOf (lit "cat") (lit "") []),
            .Write 0 (lit "hello\n"), .Close 0, .ReadAll 1, .ReadAll 2, .Wait])) :=
  Exec_cat_roundtrip (px (demo 65536)) (lit "cat") (lit "") (lit "hello\n") [] (boot [])
    { boot [] with fds := [0], inOpen := true } { boot [] with fds := [0, 1], inOpen := true }
    { boot [] with fds := [0, 1, 2], inOpen := true }
    (started ⟨[.cat 131072 []], 0⟩ [])
    { started ⟨[.cat 131072 []], 0⟩ [] with inBuf := lit "hello\n" }
    { started ⟨[.cat 131072 []], 0⟩ [] with
      fds := [1, 2], inBuf := lit "hello\n", inOpen := false }
    { boot [] with fds := [1, 2], life := .zombie }
    { boot [] with fds := [1, 2], life := .zombie }
    { boot [] with life := .reaped }
    0 1 2 6 (lit "") none none none
    (by rfl) (by rfl) (by rfl) (by rfl) (by rfl) (by rfl) (by rfl) (by rfl) (by rfl)

/-! ## Early returns after the process has started -/

/-- C4: evaluation at a failing input.  With pipes of two bytes, the program `true`
and a five-byte payload, the write to stdin fails with `EPIPE`; `Exec` returns at once:
the last call is the `Write`, the three descriptors are still open and the child is
a zombie that was never waited for.  Likewise when closing stdin fails: the last call
is the `Close`, and neither reader is closed nor the process waited for. -/
theorem write_failure_leaks :
    Exec (logged (px (demo 2))) (lit "true") (lit "") [1, 2, 3, 4, 5] [] (boot [], []) =
      some (⟨lit "", lit "", some EPIPE⟩,
        ({ boot [] with fds := [0, 1, 2], life := .zombie, inBuf := [1, 2], inOpen := true },
          [.StdinPipe, .StdoutPipe, .StderrPipe, .Start (cmdOf (lit "true") (lit "") []),
            .Write 0 [1, 2, 3, 4, 5]])) ∧
    Exec (logged scripted) (lit "true") (lit "") (lit "hi") [] (closeFails, []) =
      some (⟨lit "", lit "", some EIO⟩,
        ([], [.StdinPipe, .StdoutPipe, .StderrPipe, .Start (cmdOf (lit "true") (lit "") []),
          .Write 0 (lit "hi"), .Close 0])) := by
  refine ⟨by rfl, by rfl⟩

/-! ## Read errors -/

/-- C5 (as stated) fails: the read of stdout fails with `EIO` after one byte, and
`Exec` returns that byte with no error at all. -/
theorem read_error_dropped :
    scripted.ReadAll 1 [.data (lit "o") (some EIO), .data (lit "") none, .status none] =
      some ((lit "o", some EIO), [.data (lit "") none, .status none]) ∧
    Exec scripted (lit "cat") (lit "") (lit "hi") [] readFails =
      some (⟨lit "o", lit "", none⟩, []) := by
  refine ⟨by rfl, by rfl⟩

/-- C5 (amended): when draining stdout or draining stderr fails with a read error,
`Exec` discards that error: its outcome is the result of waiting for the process,
returned with the bytes that were read from each stream before the failure. -/
theorem Exec_read_error_ignored {σ : Type} (os : OS σ) (prog dir stdin : GoString)
    (argv : List GoString) (w0 w1 w2 w3 w4 w5 w6 w7 w8 w9 : σ) (fi fo fe : Fd) (n : Nat)
    (out err : Bytes) (e1 e2 st : Option GoError)
    (h1 : os.StdinPipe (cmdOf prog dir argv) w0 = some (.ok fi, w1))
    (h2 : os.StdoutPipe (cmdOf prog dir argv) w1 = some (.ok fo, w2))
    (h3 : os.StderrPipe (cmdOf prog dir argv) w2 = some (.ok fe, w3))
    (h4 : os.Start (cmdOf prog dir argv) w3 = some (none, w4))
    (h5 : os.Write fi (toBytes stdin) w4 = some ((n, none), w5))
    (h6 : os.Close fi w5 = some (none, w6))
    (h7 : os.ReadAll fo w6 = some ((out, e1), w7))
    (h8 : os.ReadAll fe w7 = some ((err, e2), w8))
    (h9 : os.Wait (cmdOf prog dir argv) w8 = some (st, w9))
    (_hfail : e1 ≠ none ∨ e2 ≠ none) :
    (Exec os prog dir stdin argv w0).map (fun r => r.1) =
      some { stdout := ofBytes out, stderr := ofBytes err, err := st } := by
  simp [Exec, h1, h2, h3, h4, h5, h6, h7, h8, h9]

/-- C5 (amended), at a concrete input: the read of stdout fails with `EIO` after one byte. -/
theorem Exec_read_error_ignored_witness :
    (Exec scripted (lit "cat") (lit "") (lit "hi") [] readFails).map (fun r => r.1) =
      some { stdout := lit "o", stderr := lit "", err := none } :=
  Exec_read_error_ignored scripted (lit "cat") (lit "") (lit "hi") [] readFails
    (readFails.drop 1) (readFails.drop 2) (readFails.drop 3) (readFails.drop 4)
    (readFails.drop 5) (readFails.drop 6) (readFails.drop 7) (readFails.drop 8)
    (readFails.drop 9) 0 1 2 2 (lit "o") (lit "") (some EIO) none none
    (by rfl) (by rfl) (by rfl) (by rfl) (by rfl) (by rfl) (by rfl) (by rfl) (by rfl)
    (Or.inl (by decide))

/-! ## A child that reads no input -/

/-- C6 (as stated) fails: the program `true` reads no input; with pipes of 65536 bytes,
a two-byte payload written after the child has exited fails with `EPIPE`, and so does
a payload of 1048576 bytes whenever it is written; `Exec` returns `EPIPE`, not the
child's exit status. -/
theorem unread_payload_EPIPE :
    (demo 65536).bin (cmdOf (lit "true") (lit "") []) = some ⟨[], 0⟩ ∧
    Exec (px (demo 65536)) (lit "true") (lit "") (lit "hi") [] (boot [1]) =
      some (⟨lit "", lit "", some EPIPE⟩,
        { boot [] with fds := [0, 1, 2], life := .zombie, inOpen := true }) ∧
    ∃ (n : Nat) (w5 : Sys),
      (px (demo 65536)).Write 0 (toBytes (List.replicate 1048576 0)) (started ⟨[], 0⟩ []) =
        some ((n, some EPIPE), w5) ∧
      Exec (px (demo 65536)) (lit "true") (lit "") (List.replicate 1048576 0) [] (boot []) =
        some (⟨lit "", lit "", some EPIPE⟩, w5) := by
  have hbin : (demo 65536).bin (cmdOf (lit "true") (lit "") []) = some ⟨[], 0⟩ := rfl
  refine ⟨hbin, by rfl, px_unread_overflow_EPIPE _ _ _ _ _ _ [] hbin ?_⟩
  rw [List.length_replicate]
  decide

/-- C6 (amended): the delivery of the payload and the closing of stdin can fail the
invocation, whatever the child reads.  When the write of the payload fails, `Exec`
returns that error with empty stdout and stderr, having made no call after the write
(stdin is not closed).  When the write succeeds and the close fails, `Exec` returns that
error with empty stdout and stderr, having made no call after the close.  When the write
and the close succeed and the two reads and the wait return, the calls are the write of
the whole payload, the close, the two reads and the wait, and `Exec`'s outcome is the
result of the wait (the child's exit status), with everything read. -/
theorem Exec_unread_payload {σ : Type} (os : OS σ) (prog dir stdin : GoString)
    (argv : List GoString) (w0 w1 w2 w3 w4 : σ) (fi fo fe : Fd)
    (h1 : os.StdinPipe (cmdOf prog dir argv) w0 = some (.ok fi, w1))
    (h2 : os.StdoutPipe (cmdOf prog dir argv) w1 = some (.ok fo, w2))
    (h3 : os.StderrPipe (cmdOf prog dir argv) w2 = some (.ok fe, w3))
    (h4 : os.Start (cmdOf prog dir argv) w3 = some (none, w4)) :
    (∀ (n : Nat) (e : GoError) (w5 : σ),
      os.Write fi (toBytes stdin) w4 = some ((n, some e), w5) →
      Exec (logged os) prog dir stdin argv (w0, []) =
        some (⟨lit "", lit "", some e⟩,
          (w5, [.StdinPipe, .StdoutPipe, .StderrPipe, .Start (cmdOf prog dir argv),
            .Write fi (toBytes stdin)]))) ∧
    (∀ (n : Nat) (w5 : σ) (e : GoError) (w6 : σ),
      os.Write fi (toBytes stdin) w4 = some ((n, none), w5) →
      os.Close fi w5 = some (some e, w6) →
      Exec (logged os) prog dir stdin argv (w0, []) =
        some (⟨lit "", lit "", some e⟩,
          (w6, [.StdinPipe, .StdoutPipe, .StderrPipe, .Start (cmdOf prog dir argv),
            .Write fi (toBytes stdin), .Close fi]))) ∧
    (∀ (n : Nat) (w5 w6 : σ) (out : Bytes) (e1 : Option GoError) (w7 : σ) (err : Bytes)
        (e2 : Option GoError) (w8 : σ) (st : Option GoError) (w9 : σ),
      os.Write fi (toBytes stdin) w4 = some ((n, none), w5) →
      os.Close fi w5 = some (none, w6) →
      os.ReadAll fo w6 = some ((out, e1), w7) → os.ReadAll fe w7 = some ((err, e2), w8) →
      os.Wait (cmdOf prog dir argv) w8 = some (st, w9) →
      Exec (logged os) prog dir stdin argv (w0, []) =
        some (⟨ofBytes out, ofBytes err, st⟩,
          (w9, [.StdinPipe, .StdoutPipe, .StderrPipe, .Start (cmdOf prog dir argv),
            .Write fi (toBytes stdin), .Close fi, .ReadAll fo, .ReadAll fe, .Wait]))) := by
  refine ⟨?_, ?_, ?_⟩
  · intro n e w5 h5
    simp [Exec, logged, record, h1, h2, h3, h4, h5]
  · intro n w5 e w6 h5 h6
    simp [Exec, logged, record, h1, h2, h3, h4, h5, h6]
  · intro n w5 w6 out e1 w7 err e2 w8 st w9 h5 h6 h7 h8 h9
    simp [Exec, logged, record, h1, h2, h3, h4, h5, h6, h7, h8, h9]

/-- C6 (amended), at three concrete inputs: a payload written after the child has exited
(the write fails with `EPIPE`), a close of stdin that fails with `EIO`, and a payload
that a child which reads nothing leaves in the pipe (the outcome is exit code 42). -/
theorem Exec_unread_payload_witness :
    Exec (logged (px (demo 65536))) (lit "true") (lit "") (lit "hi") [] (boot [1], []) =
      some (⟨lit "", lit "", some EPIPE⟩,
        ({ boot [] with fds := [0, 1, 2], life := .zombie, inOpen := true },
          [.StdinPipe, .StdoutPipe, .StderrPipe, .Start (cmdOf (lit "true") (lit "") []),
            .Write 0 (lit "hi")])) ∧
    Exec (logged scripted) (lit "true") (lit "") (lit "hi") [] (closeFails, []) =
      some (⟨lit "", lit "", some EIO⟩,
        ([], [.StdinPipe, .StdoutPipe, .StderrPipe, .Start (cmdOf (lit "true") (lit "") []),
          .Write 0 (lit "hi"), .Close 0])) ∧
    Exec (logged (px (demo 65536))) (lit "report") (lit "") (lit "hi") [] (boot [], []) =
      some (⟨lit "ok\n", lit "!", some (.ExitError 42)⟩,
        ({ boot [] with life := .reaped, code := 42, inBuf := lit "hi" },
          [.StdinPipe, .StdoutPipe, .StderrPipe, .Start (cmdOf (lit "report") (lit "") []),
            .Write 0 (lit "hi"), .Close 0, .ReadAll 1, .ReadAll 2, .Wait])) :=
  ⟨(Exec_unread_payload (px (demo 65536)) (lit "true") (lit "") (lit "hi") [] (boot [1])
      { boot [1] with fds := [0], inOpen := true }
      { boot [1] with fds := [0, 1], inOpen := true }
      { boot [1] with fds := [0, 1, 2], inOpen := true } (started ⟨[], 0⟩ [1]) 0 1 2
      (by rfl) (by rfl) (by rfl) (by rfl)).1 0 EPIPE
      { boot [] with fds := [0, 1, 2], life := .zombie, inOpen := true } (by rfl),
    (Exec_unread_payload scripted (lit "true") (lit "") (lit "hi") [] closeFails
      (closeFails.drop 1) (closeFails.drop 2) (closeFails.drop 3) (closeFails.drop 4) 0 1 2
      (by rfl) (by rfl) (by rfl) (by rfl)).2.1 2 (closeFails.drop 5) EIO [] (by rfl) (by rfl),
    (Exec_unread_payload (px (demo 65536)) (lit "report") (lit "") (lit "hi") [] (boot [])
      { boot [] with fds := [0], inOpen := true }
      { boot [] with fds := [0, 1], inOpen := true }
      { boot [] with fds := [0, 1, 2], inOpen := true }
      (started ⟨[.out (lit "ok"), .err (lit "!"), .out (lit "\n")], 42⟩ []) 0 1 2
      (by rfl) (by rfl) (by rfl) (by rfl)).2.2 2
      { started ⟨[.out (lit "ok"), .err (lit "!"), .out (lit "\n")], 42⟩ [] with
        inBuf := lit "hi" }
      { started ⟨[.out (lit "ok"), .err (lit "!"), .out (lit "\n")], 42⟩ [] with
        fds := [1, 2], inBuf := lit "hi", inOpen := false }
      (lit "ok\n") none
      { boot [] with fds := [1, 2], life := .zombie, code := 42, inBuf := lit "hi",
                     errBuf := lit "!" }
      (lit "!") none
      { boot [] with fds := [1, 2], life := .zombie, code := 42, inBuf := lit "hi" }
      (some (.ExitError 42))
      { boot [] with life := .reaped, code := 42, inBuf := lit "hi" }
      (by rfl) (by rfl) (by rfl) (by rfl) (by rfl)⟩

/-! ## Reading stdout, then stderr -/

/-- C7 (as stated) fails: with pipes of 65536 bytes, a child that writes 65537 bytes to
stderr and then 65537 bytes to stdout fills the stderr pipe while `Exec` reads stdout
to end-of-stream; `Exec` never returns, whether the child runs only when the caller
waits or as early as it can. -/
theorem flood_blocks :
    (demo 65536).bin (cmdOf (lit "flood") (lit "") []) =
      some ⟨[.err (List.replicate 65537 101), .out (List.replicate 65537 111)], 42⟩ ∧
    Exec (px (demo 65536)) (lit "flood") (lit "") (lit "") [] (boot []) = none ∧
    Exec (px (demo 65536)) (lit "flood") (lit "") (lit "") [] (boot [9, 9, 9, 9, 9]) = none := by
  have hbin : (demo 65536).bin (cmdOf (lit "flood") (lit "") []) =
      some ⟨[.err (List.replicate 65537 101), .out (List.replicate 65537 111)], 42⟩ := rfl
  have hover : (demo 65536).cap <
      (childErr [.err (List.replicate 65537 101), .out (List.replicate 65537 111)]).length := by
    show 65536 < (List.replicate 65537 (101 : UInt8) ++ []).length
    rw [List.length_append, List.length_replicate]
    decide
  obtain ⟨_, _, _, _, _, hlazy⟩ := px_stderr_overflow_blocks _ _ _ _ _ [] hbin hover
  obtain ⟨_, _, _, _, _, heager⟩ :=
    px_stderr_overflow_blocks _ _ _ _ _ [9, 9, 9, 9, 9] hbin hover
  exact ⟨hbin, hlazy, heager⟩

/-- C7 (amended): `Exec` reads stdout to end-of-stream and then stderr to end-of-stream,
one after the other, and then waits for the process.  Whatever the child writes and in
whatever order, when the two reads and the wait return, the invocation returns
everything the two reads delivered, and the calls made are the read of stdout, the read
of stderr and the wait, in that order.  While the read of stdout has not returned,
`Exec` does not return and does not read stderr; once it has, `Exec` does not return
before the read of stderr does. -/
theorem Exec_sequential_drain {σ : Type} (os : OS σ) (prog dir stdin : GoString)
    (argv : List GoString) (w0 w1 w2 w3 w4 w5 w6 : σ) (fi fo fe : Fd) (n : Nat)
    (h1 : os.StdinPipe (cmdOf prog dir argv) w0 = some (.ok fi, w1))
    (h2 : os.StdoutPipe (cmdOf prog dir argv) w1 = some (.ok fo, w2))
    (h3 : os.StderrPipe (cmdOf prog dir argv) w2 = some (.ok fe, w3))
    (h4 : os.Start (cmdOf prog dir argv) w3 = some (none, w4))
    (h5 : os.Write fi (toBytes stdin) w4 = some ((n, none), w5))
    (h6 : os.Close fi w5 = some (none, w6)) :
    (∀ (out : Bytes) (e1 : Option GoError) (w7 : σ) (err : Bytes) (e2 : Option GoError)
        (w8 : σ) (st : Option GoError) (w9 : σ),
      os.ReadAll fo w6 = some ((out, e1), w7) → os.ReadAll fe w7 = some ((err, e2), w8) →
      os.Wait (cmdOf prog dir argv) w8 = some (st, w9) →
      Exec (logged os) prog dir stdin argv (w0, []) =
        some (⟨ofBytes out, ofBytes err, st⟩,
          (w9, [.StdinPipe, .StdoutPipe, .StderrPipe, .Start (cmdOf prog dir argv),
            .Write fi (toBytes stdin), .Close fi, .ReadAll fo, .ReadAll fe, .Wait]))) ∧
    (os.ReadAll fo w6 = none → Exec (logged os) prog dir stdin argv (w0, []) = none) ∧
    (∀ (out : Bytes) (e1 : Option GoError) (w7 : σ),
      os.ReadAll fo w6 = some ((out, e1), w7) → os.ReadAll fe w7 = none →
      Exec (logged os) prog dir stdin argv (w0, []) = none) := by
  refine ⟨?_, ?_, ?_⟩
  · intro out e1 w7 err e2 w8 st w9 h7 h8 h9
    simp [Exec, logged, record, h1, h2, h3, h4, h5, h6, h7, h8, h9]
  · intro h7
    simp [Exec, logged, record, h1, h2, h3, h4, h5, h6, h7]
  · intro out e1 w7 h7 h8
    simp [Exec, logged, record, h1, h2, h3, h4, h5, h6, h7, h8]

/-- C7 (amended), at a concrete input in the pipe simulation: a child that writes to
stdout, then to stderr, then to stdout again; both streams are returned in full. -/
theorem Exec_sequential_drain_witness :
    Exec (logged (px (demo 65536))) (lit "report") (lit "") (lit "") [] (boot [], []) =
      some (⟨lit "ok\n", lit "!", some (.ExitError 42)⟩,
        ({ boot [] with life := .reaped, code := 42 },
          [.StdinPipe, .StdoutPipe, .StderrPipe, .Start (cmdOf (lit "report") (lit "") []),
            .Write 0 (lit ""), .Close 0, .ReadAll 1, .ReadAll 2, .Wait])) :=
  (Exec_sequential_drain (px (demo 65536)) (lit "report") (lit "") (lit "") [] (boot [])
    { boot [] with fds := [0], inOpen := true } { boot [] with fds := [0, 1], inOpen := true }
    { boot [] with fds := [0, 1, 2], inOpen := true }
    (started ⟨[.out (lit "ok"), .err (lit "!"), .out (lit "\n")], 42⟩ [])
    (started ⟨[.out (lit "ok"), .err (lit "!"), .out (lit "\n")], 42⟩ [])
    { started ⟨[.out (lit "ok"), .err (lit "!"), .out (lit "\n")], 42⟩ [] with
      fds := [1, 2], inOpen := false }
    0 1 2 0 (by rfl) (by rfl) (by rfl) (by rfl) (by rfl) (by rfl)).1
    (lit "ok\n") none
    { boot [] with fds := [1, 2], life := .zombie, code := 42, errBuf := lit "!" }
    (lit "!") none
    { boot [] with fds := [1, 2], life := .zombie, code := 42 }
    (some (.ExitError 42))
    { boot [] with life := .reaped, code := 42 }
    (by rfl) (by rfl) (by rfl)

/-! ## The wrappers -/

/-- C8: `Shell(s)` is `Exec` with program `sh`, empty working directory, payload `s`
and no arguments, and nothing else. -/
theorem Shell_eq_Exec {σ : Type} (os : OS σ) (s : GoString) (w : σ) :
    Shell os s w = Exec os (lit "sh") (lit "") s [] w := rfl

/-- C9: `RemoteShell(h, s)` is `Exec` with program `ssh`, empty working directory,
payload `s` and the arguments `h`, `"sh -il"` in that order. -/
theorem RemoteShell_eq_Exec {σ : Type} (os : OS σ) (h s : GoString) (w : σ) :
    RemoteShell os h s w = Exec os (lit "ssh") (lit "") s [h, lit "sh -il"] w := rfl

/-- C10: `DownloadDir(h, r, l)` and `UploadDir(h, l, r)` each return only the error of
one `Exec` of `rsync` with empty working directory, empty payload and the arguments
`-acrv`, `--rsh=ssh`, source, destination, where download copies from `h:r/` to `l/`
and upload from `l/` to `h:r/`: the same two paths in the opposite order. -/
theorem DownloadDir_UploadDir_rsync {σ : Type} (os : OS σ) (h r l : GoString) (w : σ) :
    DownloadDir os h r l w =
      (Exec os (lit "rsync") (lit "") (lit "")
        ([lit "-acrv", lit "--rsh=ssh"] ++ [h ++ lit ":" ++ r ++ lit "/", l ++ lit "/"]) w).map
          (fun x => (x.1.err, x.2)) ∧
    UploadDir os h l r w =
      (Exec os (lit "rsync") (lit "") (lit "")
        ([lit "-acrv", lit "--rsh=ssh"] ++ [l ++ lit "/", h ++ lit ":" ++ r ++ lit "/"]) w).map
          (fun x => (x.1.err, x.2)) := by
  constructor
  · simp only [DownloadDir, List.cons_append, List.nil_append]
    cases Exec os (lit "rsync") (lit "") (lit "")
      [lit "-acrv", lit "--rsh=ssh", h ++ lit ":" ++ r ++ lit "/", l ++ lit "/"] w <;> rfl
  · simp only [UploadDir, List.cons_append, List.nil_append]
    cases Exec os (lit "rsync") (lit "") (lit "")
      [lit "-acrv", lit "--rsh=ssh", l ++ lit "/", h ++ lit ":" ++ r ++ lit "/"] w <;> rfl

end Posix
